import Mathlib

/-!
Shallow embedding of `src/Methods/nvidia_stock_price_predictor.py`.

The program is a four-stage pipeline over a date-indexed price table
(a pandas DataFrame): load OHLCV data for a ticker, add a trailing
moving-average column, fit a one-feature linear regression on a
chronological 80/20 split and write predictions back, then render and
save a chart.  Prices are embedded as exact rationals (`ℚ`); the date
index as an abstract list of naturals (ascending day codes); missing
values (`NaN` produced by `rolling` / `np.nan`) as `Option ℚ`.
-/

namespace NvidiaPredictor

/-- A price table in the shape the script manipulates: the pandas date
index plus the OHLCV source columns, and the columns the pipeline adds
(`Date` by `load_data`, `Moving_Avg`, `Days`, `Linear_Regression_Pred`).
Columns the stage has not (yet) added are the empty list.  Field names
follow the DataFrame column names of the source. -/
structure StockFrame where
  index : List Nat
  Open : List ℚ
  High : List ℚ
  Low : List ℚ
  Close : List ℚ
  Volume : List ℚ
  Date : List Nat := []
  Moving_Avg : List (Option ℚ) := []
  Days : List Nat := []
  Linear_Regression_Pred : List (Option ℚ) := []
deriving DecidableEq

/-- `load_data` (lines 10–24): fetches the raw frame from the provider
(`yf.download`, abstracted as the function argument `provider` since the
network is outside the program) and then executes line 23,
`stock_data['Date'] = stock_data.index`, duplicating the index into a
`Date` column. -/
def load_data (provider : String → String → String → StockFrame)
    (ticker : String := "NVDA") (start_date : String := "2022-01-01")
    (end_date : String := "2023-01-01") : StockFrame :=
  let stock_data := provider ticker start_date end_date
  { stock_data with Date := stock_data.index }

/-- Pandas `Series.rolling(window=w).mean()` on a column with no missing
values: position `i` holds the arithmetic mean of the `w` entries at
positions `i - w + 1 .. i` when `i + 1 ≥ w ≥ 1`, and a missing value
(`NaN`) otherwise. -/
def rollingMean (w : Nat) (xs : List ℚ) : List (Option ℚ) :=
  (List.range xs.length).map fun i =>
    if 1 ≤ w ∧ w ≤ i + 1 then some (((xs.drop (i + 1 - w)).take w).sum / w)
    else none

/-- `moving_average_prediction` (lines 51–63): line 62 sets
`data['Moving_Avg'] = data['Close'].rolling(window=window).mean()` and
line 63 returns the frame. -/
def moving_average_prediction (data : StockFrame) (window : Nat := 5) :
    StockFrame :=
  { data with Moving_Avg := rollingMean window data.Close }

/-- Arithmetic mean of a list of rationals (the spec's "arithmetic mean
of the closing prices at positions i - w + 1 through i"). -/
def listMean (xs : List ℚ) : ℚ := xs.sum / xs.length

/-- The spec's worked scenario: a 10-record series with closes
`[1,2,3,4,5,6,7,8,9,10]` (dates are ten ascending day codes; the other
OHLCV columns mirror the closes, which no claim depends on). -/
def ex10 : StockFrame :=
  { index := [0, 1, 2, 3, 4, 5, 6, 7, 8, 9]
    Open := [1, 2, 3, 4, 5, 6, 7, 8, 9, 10]
    High := [1, 2, 3, 4, 5, 6, 7, 8, 9, 10]
    Low := [1, 2, 3, 4, 5, 6, 7, 8, 9, 10]
    Close := [1, 2, 3, 4, 5, 6, 7, 8, 9, 10]
    Volume := [1, 1, 1, 1, 1, 1, 1, 1, 1, 1] }

example : (moving_average_prediction ex10 5).Moving_Avg =
    [none, none, none, none, some 3, some 4, some 5, some 6, some 7, some 8] := by
  simp [moving_average_prediction, rollingMean, ex10, List.range_succ]
  norm_num

/-- Sklearn's `train_test_split(X, y, test_size, shuffle=False)`: with
shuffling disabled it slices, never permutes.  The test size is
`ceil(test_size * n)` samples (sklearn's documented rounding for a
fractional `test_size`), the train size the remaining `n - n_test`, the
train slice the leading samples and the test slice the trailing ones. -/
def train_test_split {α β : Type} (X : List α) (y : List β) (test_size : ℚ) :
    List α × List α × List β × List β :=
  let n := X.length
  let nTest := (⌈test_size * n⌉).toNat
  let nTrain := n - nTest
  (X.take nTrain, X.drop nTrain, y.take nTrain, y.drop nTrain)

/-- Number of evaluation samples of the 80/20 split at series length
`n`: `ceil(0.2 * n)`, as computed by `train_test_split` above. -/
def n_test (n : Nat) : Nat := (⌈(0.2 : ℚ) * n⌉).toNat

/-- Number of training samples of the 80/20 split at series length
`n`. -/
def n_train (n : Nat) : Nat := n - n_test n

/-- A fitted one-feature linear model, as produced by sklearn's
`LinearRegression().fit`: a slope (`coef_[0]`) and an intercept. -/
structure FittedLine where
  coef : ℚ
  intercept : ℚ
deriving DecidableEq

/-- Ordinary least squares for one feature with intercept, the exact
arithmetic counterpart of `LinearRegression().fit(X_train, y_train)`:
the normal-equation solution
`slope = (n·Σxy − Σx·Σy) / (n·Σx² − (Σx)²)`,
`intercept = (Σy − slope·Σx) / n`.
When the feature has zero variance the denominator is `0` and `ℚ`
division yields slope `0`, matching the minimum-norm solution sklearn's
least-squares routine returns on the centered data. -/
def fitLinearRegression (xs ys : List ℚ) : FittedLine :=
  let n : ℚ := xs.length
  let sx := xs.sum
  let sy := ys.sum
  let sxy := ((xs.zip ys).map fun p => p.1 * p.2).sum
  let sxx := ((xs.zip xs).map fun p => p.1 * p.2).sum
  let coef := (n * sxy - sx * sy) / (n * sxx - sx * sx)
  { coef := coef, intercept := (sy - coef * sx) / n }

/-- `model.predict(X)`: evaluate the fitted line at each sample. -/
def predictLine (model : FittedLine) (xs : List ℚ) : List ℚ :=
  xs.map fun x => model.intercept + model.coef * x

/-- Sklearn's `mean_squared_error(y_true, y_pred)`: the mean of the
squared differences. -/
def mean_squared_error (y_true y_pred : List ℚ) : ℚ :=
  (((y_true.zip y_pred).map fun p => (p.1 - p.2) ^ 2).sum) / y_true.length

/-- Lines 96–97: `data['Linear_Regression_Pred'] = np.nan` followed by
`data.loc[X_test.index, 'Linear_Regression_Pred'] = y_pred`.  Because
the split is unshuffled, `X_test.index` is the (unique-date) labels of
the contiguous block of rows starting at position `k = len(X_train)`,
so the assignment overwrites the all-missing column on that tail. -/
def locAssignTail (col : List (Option ℚ)) (k : Nat) (vals : List ℚ) :
    List (Option ℚ) :=
  col.take k ++ vals.map some ++ col.drop (k + vals.length)

/-- `linear_regression_prediction` (lines 66–99), returning the updated
frame together with the mean squared error the function prints.
Line 77 sets `data['Days'] = np.arange(len(data))`; line 82 splits with
`test_size=0.2, shuffle=False`; lines 85–89 fit and predict; line 92
computes the MSE; lines 96–97 write the predictions at the test rows'
positions. -/
def linear_regression_prediction (data : StockFrame) : StockFrame × ℚ :=
  let Days := List.range data.index.length
  let X := Days
  let y := data.Close
  let s := train_test_split X y 0.2
  let X_train := s.1
  let X_test := s.2.1
  let y_train := s.2.2.1
  let y_test := s.2.2.2
  let model := fitLinearRegression (X_train.map (Nat.cast : Nat → ℚ)) y_train
  let y_pred := predictLine model (X_test.map (Nat.cast : Nat → ℚ))
  let mse := mean_squared_error y_test y_pred
  let col := locAssignTail (List.replicate data.index.length none)
    X_train.length y_pred
  ({ data with Days := Days, Linear_Regression_Pred := col }, mse)

/-- The fitted line `linear_regression_prediction` uses for a given
frame: OLS on the training slice (time indices `0 .. n_train − 1`
against the first `n_train` closes). -/
def lrModel (data : StockFrame) : FittedLine :=
  fitLinearRegression
    ((List.range (n_train data.index.length)).map (Nat.cast : Nat → ℚ))
    (data.Close.take (n_train data.index.length))

/-- A matplotlib drawing command issued against the current figure.
A `plot` carries its x-series (here always a date column), its y-series
(`Option ℚ` so `NaN`-bearing columns plot with gaps), a label and a
color. -/
inductive PlotCmd where
  | figure (width height : Nat)
  | plot (x : List Nat) (y : List (Option ℚ)) (label : String) (color : String)
  | title (s : String)
  | xlabel (s : String)
  | ylabel (s : String)
  | legend
  | grid (b : Bool)
deriving DecidableEq

/-- An observable effect of `visualize_predictions`: drawing on the
current figure, persisting it under a file name (`plt.savefig`), or
displaying it (`plt.show`). -/
inductive VizEffect where
  | draw (c : PlotCmd)
  | savefig (filename : String)
  | pltShow
deriving DecidableEq

/-- The chart `visualize_predictions` builds (lines 112–127): a
14×7 figure with the actual closes, the moving average and the linear
regression prediction, all plotted against the frame's `Date` column,
plus title, axis labels, legend and grid. -/
def chartOf (data : StockFrame) : List PlotCmd :=
  [.figure 14 7,
   .plot data.Date (data.Close.map some) "Actual Prices" "blue",
   .plot data.Date data.Moving_Avg "Moving Average (window=5)" "green",
   .plot data.Date data.Linear_Regression_Pred "Linear Regression Prediction" "red",
   .title "Nvidia Stock Price Prediction",
   .xlabel "Date",
   .ylabel "Price (USD)",
   .legend,
   .grid true]

/-- `visualize_predictions` (lines 102–133) as its ordered effect
trace paired with its return value: draw the chart, save it to the
fixed file name (line 130), then show it (line 133).  The Python
function has no `return` statement, so it returns `None` (here `Unit`).
-/
def visualize_predictions (data : StockFrame) : List VizEffect × Unit :=
  ((chartOf data).map .draw ++
    [.savefig "nvidia_stock_price_prediction.png", .pltShow], ())

/-- The matplotlib runtime state the effects act on: the current
figure's accumulated commands, the file system (name ↦ saved figure,
`savefig` overwrites unconditionally), and the figures displayed so
far. -/
structure Canvas where
  current : List PlotCmd
  files : String → Option (List PlotCmd)
  displayed : List (List PlotCmd)

/-- Semantics of one effect. -/
def stepEffect (c : Canvas) : VizEffect → Canvas
  | .draw cmd => { c with current := c.current ++ [cmd] }
  | .savefig name =>
      { c with files := fun p => if p = name then some c.current else c.files p }
  | .pltShow => { c with displayed := c.displayed ++ [c.current] }

/-- Run an effect trace from a canvas state. -/
def runEffects (c : Canvas) : List VizEffect → Canvas
  | [] => c
  | e :: es => runEffects (stepEffect c e) es

/-- How the executable module acquires data: a provider fetch
(`yf.download(ticker, start, end)`) or a CSV read
(`pd.read_csv(filepath, ...)`). -/
inductive DataSource where
  | yfDownload (ticker start_date end_date : String)
  | csvRead (filepath : String)
deriving DecidableEq

/-- `True` exactly on CSV reads. -/
def DataSource.isCsvRead : DataSource → Bool
  | .csvRead _ => true
  | _ => false

/-- The data acquisitions the module performs when run as a script: the
module-level statement `stock_data = load_data()` (line 47) and the call
`stock_data = load_data()` inside `main` (line 146), both of which
resolve to `yf.download` with the default arguments (line 22).  The CSV
loader `load_finance_data_from_csv` and its invocation (lines 28–43) are
commented out in the source, so no executed statement reads a local
file. -/
def moduleDataSources : List DataSource :=
  [.yfDownload "NVDA" "2022-01-01" "2023-01-01",
   .yfDownload "NVDA" "2022-01-01" "2023-01-01"]

/-- The function definitions (`def` statements) the module executes, in
source order.  Line 28, `# def load_finance_data_from_csv(filepath):`,
is a comment, so no such function is defined. -/
def moduleDefs : List String :=
  ["load_data", "moving_average_prediction", "linear_regression_prediction",
   "visualize_predictions", "main"]

/-- The x-series of a `plot` command, if any. -/
def plotX : PlotCmd → Option (List Nat)
  | .plot x _ _ _ => some x
  | _ => none

/-! ### Supporting lemmas -/

/-- Closed form of sklearn's rounding: `ceil(0.2 * n) = (n + 4) / 5` in
natural-number arithmetic. -/
theorem n_test_eq (n : Nat) : n_test n = (n + 4) / 5 := by
  unfold n_test
  have h02 : (0.2 : ℚ) = 1 / 5 := by norm_num
  generalize hm : (n + 4) / 5 = m
  have hm1 : 5 * m ≤ n + 4 := by omega
  have hm2 : n ≤ 5 * m := by omega
  have hq1 : (5 : ℚ) * m ≤ (n : ℚ) + 4 := by exact_mod_cast hm1
  have hq2 : (n : ℚ) ≤ 5 * m := by exact_mod_cast hm2
  have hceil : ⌈(0.2 : ℚ) * n⌉ = (m : ℤ) := by
    rw [Int.ceil_eq_iff, h02]
    constructor
    · push_cast
      linarith
    · push_cast
      linarith
  rw [hceil, Int.toNat_natCast]

/-- `1 ≤ n_test n` once there are records at all. -/
theorem n_test_pos (n : Nat) (h : 1 ≤ n) : 1 ≤ n_test n := by
  rw [n_test_eq]; omega

/-- `n_train` and `n_test` partition the records. -/
theorem n_train_add_n_test (n : Nat) : n_train n + n_test n = n := by
  have := n_test_eq n
  unfold n_train
  omega

/-- The rolling-mean column has one entry per record. -/
theorem length_rollingMean (w : Nat) (xs : List ℚ) :
    (rollingMean w xs).length = xs.length := by
  simp [rollingMean]

/-- Unfolding the unshuffled 80/20 split: the four returned slices are
`take` / `drop` at the training length. -/
theorem train_test_split_eq {α β : Type} (X : List α) (y : List β) :
    train_test_split X y 0.2 =
      (X.take (n_train X.length), X.drop (n_train X.length),
       y.take (n_train X.length), y.drop (n_train X.length)) := rfl

/-- Writing `vals` over the trailing block of an all-missing column:
the result is `k` missing values followed by `vals`. -/
theorem locAssignTail_replicate (n k : Nat) (vals : List ℚ)
    (h : k + vals.length = n) :
    locAssignTail (List.replicate n (none : Option ℚ)) k vals =
      List.replicate k none ++ vals.map some := by
  unfold locAssignTail
  rw [List.take_replicate, List.drop_replicate]
  have h1 : min k n = k := by omega
  have h2 : n - (k + vals.length) = 0 := by omega
  rw [h1, h2]
  simp

/-- Normal form of the forecast column: `n_train` missing values
followed by the fitted line evaluated at the test-slice time indices. -/
theorem lr_pred_col (d : StockFrame) :
    (linear_regression_prediction d).1.Linear_Regression_Pred =
      List.replicate (n_train d.index.length) (none : Option ℚ) ++
        ((List.range d.index.length).drop (n_train d.index.length)).map
          (fun x : Nat =>
            some ((lrModel d).intercept + (lrModel d).coef * (x : ℚ))) := by
  have hk : n_train d.index.length ≤ d.index.length := Nat.sub_le _ _
  simp only [linear_regression_prediction]
  rw [train_test_split_eq]
  simp only [List.length_range]
  rw [List.take_range]
  have hmin : min (n_train d.index.length) d.index.length =
      n_train d.index.length := by omega
  rw [hmin]
  rw [locAssignTail_replicate]
  · simp [predictLine, List.map_map, lrModel]
    rfl
  · simp [predictLine]
    omega

/-- Normal form of the printed mean squared error: the library MSE of
the trailing closes against the fitted line on the test indices. -/
theorem lr_mse_eq (d : StockFrame) :
    (linear_regression_prediction d).2 =
      mean_squared_error (d.Close.drop (n_train d.index.length))
        (((List.range d.index.length).drop (n_train d.index.length)).map
          (fun x : Nat =>
            (lrModel d).intercept + (lrModel d).coef * (x : ℚ))) := by
  have hk : n_train d.index.length ≤ d.index.length := Nat.sub_le _ _
  simp only [linear_regression_prediction]
  rw [train_test_split_eq]
  simp only [List.length_range]
  rw [List.take_range]
  have hmin : min (n_train d.index.length) d.index.length =
      n_train d.index.length := by omega
  rw [hmin]
  simp [predictLine, List.map_map, lrModel]
  rfl

/-- Residuals of an affine predictor sum linearly in the data sums. -/
theorem sum_resid_eq (l : List (ℚ × ℚ)) (c m : ℚ) :
    (l.map fun p => p.2 - c - m * p.1).sum =
      (l.map Prod.snd).sum - l.length * c - m * (l.map Prod.fst).sum := by
  induction l with
  | nil => simp
  | cons p t ih =>
    simp [ih]
    ring

/-- Feature-weighted residuals of an affine predictor, likewise. -/
theorem sum_x_resid_eq (l : List (ℚ × ℚ)) (c m : ℚ) :
    (l.map fun p => p.1 * (p.2 - c - m * p.1)).sum =
      (l.map fun p => p.1 * p.2).sum - c * (l.map Prod.fst).sum -
        m * (l.map fun p => p.1 * p.1).sum := by
  induction l with
  | nil => simp
  | cons p t ih =>
    simp [ih]
    ring

/-- Sum-of-squares decomposition: the squared error of any affine
predictor `(c', m')` splits into the squared error of `(c, m)`, cross
terms against the `(c, m)` residuals, and a non-negative correction. -/
theorem sse_decomp (l : List (ℚ × ℚ)) (c m c' m' : ℚ) :
    (l.map fun p => (p.2 - c' - m' * p.1) ^ 2).sum =
      (l.map fun p => (p.2 - c - m * p.1) ^ 2).sum -
        2 * (c' - c) * (l.map fun p => p.2 - c - m * p.1).sum -
        2 * (m' - m) * (l.map fun p => p.1 * (p.2 - c - m * p.1)).sum +
        (l.map fun p => ((c' - c) + (m' - m) * p.1) ^ 2).sum := by
  induction l with
  | nil => simp
  | cons p t ih =>
    simp [ih]
    ring

/-- Zipping a list with itself and multiplying componentwise squares
it. -/
theorem zip_self_map (xs : List ℚ) :
    (xs.zip xs).map (fun p => p.1 * p.2) = xs.map fun x => x * x := by
  induction xs with
  | nil => simp
  | cons x t ih => simp [ih]

/-- `fitLinearRegression` really is ordinary least squares: whenever
the feature values are not all equal (non-zero variance denominator),
the fitted line's sum of squared errors is no larger than that of any
other line. -/
theorem fitLinearRegression_isOLS (xs ys : List ℚ)
    (hlen : xs.length = ys.length)
    (hD : (xs.length : ℚ) * ((xs.zip xs).map fun p => p.1 * p.2).sum -
      xs.sum * xs.sum ≠ 0) (c m : ℚ) :
    ((xs.zip ys).map fun p =>
        (p.2 - (fitLinearRegression xs ys).intercept -
          (fitLinearRegression xs ys).coef * p.1) ^ 2).sum ≤
      ((xs.zip ys).map fun p => (p.2 - c - m * p.1) ^ 2).sum := by
  have hn : xs ≠ [] := by
    rintro rfl
    simp at hD
  have hn0 : (xs.length : ℚ) ≠ 0 := by
    simpa using fun h => hn (List.length_eq_zero.mp h)
  set l := xs.zip ys with hl
  have hfst : l.map Prod.fst = xs := List.map_fst_zip xs ys (le_of_eq hlen)
  have hsnd : l.map Prod.snd = ys := List.map_snd_zip xs ys (ge_of_eq hlen)
  have hlenl : l.length = xs.length := by
    simp [hl, List.length_zip]
    omega
  have hxx : (l.map fun p => p.1 * p.1).sum =
      ((xs.zip xs).map fun p => p.1 * p.2).sum := by
    rw [zip_self_map]
    have hcomp : (l.map fun p => p.1 * p.1) =
        (l.map Prod.fst).map fun x => x * x := by
      simp [List.map_map, Function.comp]
    rw [hcomp, hfst]
  set Sx := xs.sum with hSx
  set Sy := ys.sum with hSy
  set Sxy := (l.map fun p => p.1 * p.2).sum with hSxy
  set Sxx := ((xs.zip xs).map fun p => p.1 * p.2).sum with hSxx
  set n : ℚ := (xs.length : ℚ) with hnq
  have hcoef : (fitLinearRegression xs ys).coef =
      (n * Sxy - Sx * Sy) / (n * Sxx - Sx * Sx) := rfl
  have hint : (fitLinearRegression xs ys).intercept =
      (Sy - (fitLinearRegression xs ys).coef * Sx) / n := rfl
  set a := (fitLinearRegression xs ys).coef with ha
  set b := (fitLinearRegression xs ys).intercept with hb
  have hE1 : (l.map fun p => p.2 - b - a * p.1).sum = 0 := by
    rw [sum_resid_eq, hfst, hsnd, hlenl, hint]
    field_simp
  have hE2 : (l.map fun p => p.1 * (p.2 - b - a * p.1)).sum = 0 := by
    rw [sum_x_resid_eq, hfst, hxx]
    rw [hint, hcoef]
    field_simp
    ring
  calc (l.map fun p => (p.2 - b - a * p.1) ^ 2).sum
      ≤ (l.map fun p => (p.2 - b - a * p.1) ^ 2).sum +
          (l.map fun p => ((c - b) + (m - a) * p.1) ^ 2).sum := by
        have hpos : 0 ≤ (l.map fun p => ((c - b) + (m - a) * p.1) ^ 2).sum := by
          apply List.sum_nonneg
          intro x hx
          simp only [List.mem_map] at hx
          obtain ⟨p, hp, rfl⟩ := hx
          positivity
        linarith
    _ = (l.map fun p => (p.2 - c - m * p.1) ^ 2).sum := by
        rw [sse_decomp l b a c m, hE1, hE2]
        ring

/-- The spec's perfect-line scenario: on the 10-record series with
closes `[1,…,10]` the fitted line is `close = 1 + 1 · day` and the
reported mean squared error is exactly zero. -/
theorem scenario_perfect_fit :
    lrModel ex10 = ⟨1, 1⟩ ∧ (linear_regression_prediction ex10).2 = 0 := by
  have hnt : n_train ex10.index.length = 8 := by
    norm_num [n_train, n_test_eq, ex10]
  have hm : lrModel ex10 = ⟨1, 1⟩ := by
    rw [lrModel, hnt]
    norm_num [fitLinearRegression, ex10, List.range_succ, List.zip_cons_cons]
  refine ⟨hm, ?_⟩
  rw [lr_mse_eq, hnt, hm]
  norm_num [mean_squared_error, ex10, List.range_succ, List.zip_cons_cons]

/-! ### Claim theorems -/

/-- C1: for every price series of length `n` and window `w` with
`1 ≤ w ≤ n`, the moving-average column produced by
`moving_average_prediction` has one entry per record, is undefined at
exactly the first `w − 1` positions and, at each position `i ≥ w − 1`,
holds the arithmetic mean of the closes at positions `i − w + 1 .. i`;
for closes `[1,…,10]` with window 5 the column is
`[NA,NA,NA,NA,3,4,5,6,7,8]`. -/
theorem moving_average_column_spec (d : StockFrame) (w : Nat)
    (h1 : 1 ≤ w) (h2 : w ≤ d.Close.length) :
    ((moving_average_prediction d w).Moving_Avg.length = d.Close.length ∧
      (∀ i, i + 1 < w →
        (moving_average_prediction d w).Moving_Avg[i]? = some none) ∧
      (∀ i, w ≤ i + 1 → i < d.Close.length →
        (moving_average_prediction d w).Moving_Avg[i]? =
          some (some (listMean ((d.Close.drop (i + 1 - w)).take w))))) ∧
    (moving_average_prediction ex10 5).Moving_Avg =
      [none, none, none, none, some 3, some 4, some 5, some 6, some 7, some 8] := by
  refine ⟨⟨length_rollingMean w d.Close, ?_, ?_⟩, ?_⟩
  · intro i hi
    have hin : i < d.Close.length := by omega
    simp [moving_average_prediction, rollingMean, List.getElem?_map,
      List.getElem?_range hin]
    omega
  · intro i hw hin
    have hlen : ((d.Close.drop (i + 1 - w)).take w).length = w := by
      simp [List.length_take, List.length_drop]
      omega
    simp [moving_average_prediction, rollingMean, List.getElem?_map,
      List.getElem?_range hin, h1, hw, listMean, hlen]
  · simp [moving_average_prediction, rollingMean, ex10, List.range_succ]
    norm_num

/-- Witness for `moving_average_column_spec`: the spec's 10-record
scenario with window 5. -/
theorem moving_average_column_spec_witness :
    (1 ≤ 5 ∧ 5 ≤ ex10.Close.length) ∧
    (moving_average_prediction ex10 5).Moving_Avg =
      [none, none, none, none, some 3, some 4, some 5, some 6, some 7, some 8] :=
  ⟨⟨by decide, by decide⟩,
    (moving_average_column_spec ex10 5 (by decide) (by decide)).2⟩

/-- C5: `linear_regression_prediction` gives every record a `Days`
value, the column being exactly `[0, 1, …, n − 1]` — one strictly
increasing integer index per record, in the series' existing order. -/
theorem days_column_spec (d : StockFrame) :
    (linear_regression_prediction d).1.Days = List.range d.index.length ∧
    (linear_regression_prediction d).1.Days.length = d.index.length ∧
    List.Pairwise (· < ·) (linear_regression_prediction d).1.Days := by
  refine ⟨rfl, by simp [linear_regression_prediction], ?_⟩
  exact List.pairwise_lt_range d.index.length

/-- C6: the moving-average stage and the trend forecaster leave the
date index and every previously existing column untouched — the
moving-average stage changes nothing but the `Moving_Avg` column, the
forecaster nothing but `Days` and `Linear_Regression_Pred` — and hence
records sorted by date stay sorted by date through both stages. -/
theorem stages_preserve_frame (d : StockFrame) (w : Nat) :
    ((moving_average_prediction d w).index = d.index ∧
      (moving_average_prediction d w).Open = d.Open ∧
      (moving_average_prediction d w).High = d.High ∧
      (moving_average_prediction d w).Low = d.Low ∧
      (moving_average_prediction d w).Close = d.Close ∧
      (moving_average_prediction d w).Volume = d.Volume ∧
      (moving_average_prediction d w).Date = d.Date ∧
      (moving_average_prediction d w).Days = d.Days ∧
      (moving_average_prediction d w).Linear_Regression_Pred =
        d.Linear_Regression_Pred) ∧
    ((linear_regression_prediction d).1.index = d.index ∧
      (linear_regression_prediction d).1.Open = d.Open ∧
      (linear_regression_prediction d).1.High = d.High ∧
      (linear_regression_prediction d).1.Low = d.Low ∧
      (linear_regression_prediction d).1.Close = d.Close ∧
      (linear_regression_prediction d).1.Volume = d.Volume ∧
      (linear_regression_prediction d).1.Date = d.Date ∧
      (linear_regression_prediction d).1.Moving_Avg = d.Moving_Avg) ∧
    (List.Pairwise (· < ·) d.index →
      List.Pairwise (· < ·) (moving_average_prediction d w).index ∧
      List.Pairwise (· < ·) (linear_regression_prediction d).1.index) := by
  exact ⟨⟨rfl, rfl, rfl, rfl, rfl, rfl, rfl, rfl, rfl⟩,
    ⟨rfl, rfl, rfl, rfl, rfl, rfl, rfl, rfl⟩,
    fun h => ⟨h, h⟩⟩

/-- Witness for `stages_preserve_frame`: the scenario frame, whose
index is sorted. -/
theorem stages_preserve_frame_witness :
    List.Pairwise (· < ·) ex10.index ∧
    List.Pairwise (· < ·) (moving_average_prediction ex10 5).index ∧
    List.Pairwise (· < ·) (linear_regression_prediction ex10).1.index :=
  ⟨by decide, ((stages_preserve_frame ex10 5).2.2 (by decide)).1,
    ((stages_preserve_frame ex10 5).2.2 (by decide)).2⟩

/-- C2: on a series with at least two records, the split performed by
`linear_regression_prediction` is chronological with no shuffling: the
training slice is the records at positions `0 .. n_train − 1` (its time
indices are exactly `[0, …, n_train − 1]` and its closes the first
`n_train` closes), the evaluation slice the trailing records, train
preceding test so that together they list the positions in order; a
10-record series splits into an 8-record training slice at positions
0–7 and a 2-record evaluation slice at positions 8–9. -/
theorem chronological_split_spec (d : StockFrame)
    (h2 : 2 ≤ d.index.length) (hlen : d.Close.length = d.index.length) :
    ((train_test_split (List.range d.index.length) d.Close 0.2).1 =
        List.range (n_train d.index.length) ∧
      (train_test_split (List.range d.index.length) d.Close 0.2).1 ++
        (train_test_split (List.range d.index.length) d.Close 0.2).2.1 =
        List.range d.index.length ∧
      (train_test_split (List.range d.index.length) d.Close 0.2).2.2.1 =
        d.Close.take (n_train d.index.length) ∧
      (train_test_split (List.range d.index.length) d.Close 0.2).2.2.2 =
        d.Close.drop (n_train d.index.length) ∧
      (train_test_split (List.range d.index.length) d.Close 0.2).1.length =
        n_train d.index.length ∧
      (train_test_split (List.range d.index.length) d.Close 0.2).2.1.length =
        n_test d.index.length ∧
      (train_test_split (List.range d.index.length) d.Close 0.2).2.2.1.length =
        n_train d.index.length ∧
      (train_test_split (List.range d.index.length) d.Close 0.2).2.2.2.length =
        n_test d.index.length) ∧
    ((train_test_split (List.range ex10.index.length) ex10.Close 0.2).1 =
        [0, 1, 2, 3, 4, 5, 6, 7] ∧
      (train_test_split (List.range ex10.index.length) ex10.Close 0.2).2.1 =
        [8, 9] ∧
      (train_test_split (List.range ex10.index.length) ex10.Close 0.2).2.2.1 =
        [1, 2, 3, 4, 5, 6, 7, 8] ∧
      (train_test_split (List.range ex10.index.length) ex10.Close 0.2).2.2.2 =
        [9, 10]) := by
  have hk : n_train d.index.length ≤ d.index.length := Nat.sub_le _ _
  have hsum := n_train_add_n_test d.index.length
  simp only [train_test_split_eq, List.length_range]
  refine ⟨⟨?_, List.take_append_drop _ _, trivial, trivial, ?_, ?_, ?_, ?_⟩, ?_⟩
  · rw [List.take_range]
    congr 1
    omega
  · simp [List.length_take]
    omega
  · simp [List.length_drop]
    omega
  · simp [List.length_take, hlen]
    omega
  · simp [List.length_drop, hlen]
    omega
  · have h10 : ex10.index.length = 10 := by decide
    have hnt : n_train ((10 : Nat)) = 8 := by
      unfold n_train
      rw [n_test_eq]
    rw [h10, hnt]
    refine ⟨?_, ?_, ?_, ?_⟩ <;> simp [ex10, List.range_succ]

/-- Witness for `chronological_split_spec`: the spec's 10-record
scenario. -/
theorem chronological_split_spec_witness :
    (2 ≤ ex10.index.length ∧ ex10.Close.length = ex10.index.length) ∧
    ((train_test_split (List.range ex10.index.length) ex10.Close 0.2).1 =
        [0, 1, 2, 3, 4, 5, 6, 7] ∧
      (train_test_split (List.range ex10.index.length) ex10.Close 0.2).2.1 =
        [8, 9] ∧
      (train_test_split (List.range ex10.index.length) ex10.Close 0.2).2.2.1 =
        [1, 2, 3, 4, 5, 6, 7, 8] ∧
      (train_test_split (List.range ex10.index.length) ex10.Close 0.2).2.2.2 =
        [9, 10]) :=
  ⟨⟨by decide, by decide⟩,
    (chronological_split_spec ex10 (by decide) (by decide)).2⟩

/-- C9: the split's rounding policy is sklearn's ceiling rule — the
evaluation slice has exactly `⌈0.2 · n⌉` records (equivalently
`(n + 4) / 5` in integer arithmetic), the training slice the remaining
`n − ⌈0.2 · n⌉`, with the training slice coming first. -/
theorem split_rounding_spec (d : StockFrame)
    (h2 : 2 ≤ d.index.length) (hlen : d.Close.length = d.index.length) :
    (((train_test_split (List.range d.index.length) d.Close 0.2).2.1.length :
        ℤ) = ⌈(0.2 : ℚ) * d.index.length⌉ ∧
      (train_test_split (List.range d.index.length) d.Close 0.2).2.1.length =
        (d.index.length + 4) / 5) ∧
    (train_test_split (List.range d.index.length) d.Close 0.2).1.length =
      d.index.length -
        (train_test_split (List.range d.index.length) d.Close 0.2).2.1.length ∧
    (train_test_split (List.range d.index.length) d.Close 0.2).1 ++
      (train_test_split (List.range d.index.length) d.Close 0.2).2.1 =
      List.range d.index.length := by
  have hk : n_train d.index.length ≤ d.index.length := Nat.sub_le _ _
  have hsum := n_train_add_n_test d.index.length
  have hnn : (0 : ℚ) ≤ 0.2 * d.index.length := by positivity
  have hcnn : 0 ≤ ⌈(0.2 : ℚ) * d.index.length⌉ := Int.ceil_nonneg hnn
  simp only [train_test_split_eq, List.length_range]
  have hdl : ((List.range d.index.length).drop
      (n_train d.index.length)).length = n_test d.index.length := by
    simp [List.length_drop]
    omega
  refine ⟨⟨?_, ?_⟩, ?_, List.take_append_drop _ _⟩
  · rw [hdl]
    unfold n_test
    rw [Int.toNat_of_nonneg hcnn]
  · rw [hdl, n_test_eq]
  · rw [hdl]
    simp [List.length_take]
    omega

/-- Witness for `split_rounding_spec`: at the 10-record scenario the
evaluation slice has `(10 + 4) / 5 = 2` records. -/
theorem split_rounding_spec_witness :
    (2 ≤ ex10.index.length ∧ ex10.Close.length = ex10.index.length) ∧
    (train_test_split (List.range ex10.index.length) ex10.Close 0.2).2.1.length =
      (ex10.index.length + 4) / 5 :=
  ⟨⟨by decide, by decide⟩,
    (split_rounding_spec ex10 (by decide) (by decide)).1.2⟩

/-- C3: after `linear_regression_prediction`, the forecast column has
one entry per record, is undefined at every training position
(`i < n_train`) and defined at exactly the trailing evaluation
positions (`n_train ≤ i < n`), where it holds the fitted
ordinary-least-squares line evaluated at that record's time index. -/
theorem forecast_column_spec (d : StockFrame)
    (h2 : 2 ≤ d.index.length) (hlen : d.Close.length = d.index.length) :
    (linear_regression_prediction d).1.Linear_Regression_Pred.length =
      d.index.length ∧
    (∀ i, i < n_train d.index.length →
      (linear_regression_prediction d).1.Linear_Regression_Pred[i]? =
        some none) ∧
    (∀ i, n_train d.index.length ≤ i → i < d.index.length →
      (linear_regression_prediction d).1.Linear_Regression_Pred[i]? =
        some (some ((lrModel d).intercept + (lrModel d).coef * (i : ℚ)))) := by
  have hk : n_train d.index.length ≤ d.index.length := Nat.sub_le _ _
  rw [lr_pred_col]
  refine ⟨?_, ?_, ?_⟩
  · simp [List.length_drop]
    omega
  · intro i hi
    simp [List.getElem?_append, List.length_replicate, hi,
      List.getElem?_replicate]
  · intro i h1 hn
    rw [List.getElem?_append_right (by simpa using h1)]
    simp only [List.length_replicate]
    rw [List.getElem?_map, List.getElem?_drop]
    have hii : n_train d.index.length + (i - n_train d.index.length) = i := by
      omega
    rw [hii, List.getElem?_range hn]
    rfl

/-- Witness for `forecast_column_spec`: at the 10-record scenario, the
last record's forecast is the fitted line at time index 9. -/
theorem forecast_column_spec_witness :
    (2 ≤ ex10.index.length ∧ ex10.Close.length = ex10.index.length) ∧
    (linear_regression_prediction ex10).1.Linear_Regression_Pred[9]? =
      some (some ((lrModel ex10).intercept + (lrModel ex10).coef * (9 : ℚ))) :=
  ⟨⟨by decide, by decide⟩,
    (forecast_column_spec ex10 (by decide) (by decide)).2.2 9
      (by norm_num [n_train, n_test_eq, ex10]) (by decide)⟩

/-- C4: the mean squared error `linear_regression_prediction` reports
is non-negative and equals the average, over exactly the evaluation
slice, of the squared differences between the fitted line's prediction
and the actual close. -/
theorem mse_spec (d : StockFrame)
    (h2 : 2 ≤ d.index.length) (hlen : d.Close.length = d.index.length) :
    0 ≤ (linear_regression_prediction d).2 ∧
    (linear_regression_prediction d).2 =
      (((d.Close.drop (n_train d.index.length)).zip
          (((List.range d.index.length).drop (n_train d.index.length)).map
            (fun x : Nat =>
              (lrModel d).intercept + (lrModel d).coef * (x : ℚ)))).map
        (fun p => (p.1 - p.2) ^ 2)).sum / (n_test d.index.length : ℚ) := by
  have hk : n_train d.index.length ≤ d.index.length := Nat.sub_le _ _
  have hsum := n_train_add_n_test d.index.length
  have hdlen : (d.Close.drop (n_train d.index.length)).length =
      n_test d.index.length := by
    simp [List.length_drop, hlen]
    omega
  constructor
  · rw [lr_mse_eq]
    unfold mean_squared_error
    apply div_nonneg
    · apply List.sum_nonneg
      intro x hx
      simp only [List.mem_map] at hx
      obtain ⟨p, hp, rfl⟩ := hx
      positivity
    · positivity
  · rw [lr_mse_eq]
    unfold mean_squared_error
    rw [hdlen]

/-- Witness for `mse_spec`: the reported error is non-negative at the
10-record scenario. -/
theorem mse_spec_witness :
    (2 ≤ ex10.index.length ∧ ex10.Close.length = ex10.index.length) ∧
    0 ≤ (linear_regression_prediction ex10).2 :=
  ⟨⟨by decide, by decide⟩, (mse_spec ex10 (by decide) (by decide)).1⟩

/-- C8: on every frame, `visualize_predictions` emits its effects in
the order draw-chart, save, show; started from any prior file system
and display history, it leaves the chart stored under the fixed name
`nvidia_stock_price_prediction.png` (regardless of what that name held
before, i.e. overwriting it), displays exactly that chart afterwards,
and returns no value. -/
theorem visualize_spec (data : StockFrame)
    (files0 : String → Option (List PlotCmd))
    (displayed0 : List (List PlotCmd)) :
    (visualize_predictions data).1 =
      (chartOf data).map VizEffect.draw ++
        [VizEffect.savefig "nvidia_stock_price_prediction.png",
         VizEffect.pltShow] ∧
    (runEffects ⟨[], files0, displayed0⟩ (visualize_predictions data).1).files
      "nvidia_stock_price_prediction.png" = some (chartOf data) ∧
    (runEffects ⟨[], files0, displayed0⟩
      (visualize_predictions data).1).displayed =
      displayed0 ++ [chartOf data] ∧
    (visualize_predictions data).2 = () := by
  refine ⟨rfl, ?_, ?_, rfl⟩ <;>
    simp [visualize_predictions, chartOf, runEffects, stepEffect]

/-- C10: `load_data` hands back the provider's frame augmented with a
`Date` column equal to the frame's date index, leaving the OHLCV
columns as fetched; and all three series of the chart take their
x-axis from the frame's `Date` column — not from the index — whatever
the frame. -/
theorem date_axis_spec (provider : String → String → String → StockFrame)
    (ticker start_date end_date : String) (data : StockFrame) :
    ((load_data provider ticker start_date end_date).Date =
        (provider ticker start_date end_date).index ∧
      (load_data provider ticker start_date end_date).index =
        (provider ticker start_date end_date).index ∧
      (load_data provider ticker start_date end_date).Close =
        (provider ticker start_date end_date).Close) ∧
    (chartOf data).filterMap plotX = [data.Date, data.Date, data.Date] := by
  refine ⟨⟨rfl, rfl, rfl⟩, ?_⟩
  simp [chartOf, plotX, List.filterMap]

/-- C7 as stated fails on the code: the CSV loader
`load_finance_data_from_csv` is commented out in the source, so the
executable module neither defines it nor ever reads a local file — in
particular it never reads `nvidia_stock_data.csv`, the file the
source's comments name. -/
theorem no_csv_loader_counterexample :
    DataSource.csvRead "nvidia_stock_data.csv" ∉ moduleDataSources ∧
    moduleDataSources.all (fun s => !s.isCsvRead) = true ∧
    "load_finance_data_from_csv" ∉ moduleDefs := by
  decide

/-- C7 amended: the CSV alternative exists in the repository only as
commented-out code; the executable program defines no
`load_finance_data_from_csv` and every data acquisition it performs is
the provider fetch with the default ticker and date range. -/
theorem loader_network_only :
    moduleDataSources =
      [DataSource.yfDownload "NVDA" "2022-01-01" "2023-01-01",
       DataSource.yfDownload "NVDA" "2022-01-01" "2023-01-01"] ∧
    moduleDataSources.all (fun s => !s.isCsvRead) = true ∧
    "load_finance_data_from_csv" ∉ moduleDefs := by
  exact ⟨rfl, by decide, by decide⟩

end NvidiaPredictor
